import Mathlib

/-!
Verification of the yggpub dashboard server (src/yggpub.go) against its
specification.  The Go program is shallowly embedded below: uint64
arithmetic is Nat with explicit reduction modulo 2 ^ 64, the Go map used
as peer aggregation state is an association list, the handler control flow
is a total function from an environment describing the per-request I/O
outcomes to an abstract handler result.
-/

/-! ## uint64 arithmetic -/

/-- 2 ^ 64, the modulus of Go uint64 arithmetic. -/
def u64 : Nat := 2 ^ 64

/-- Go uint64 addition. -/
def u64add (a b : Nat) : Nat := (a + b) % u64

/-- Go uint64 subtraction (wraps on underflow). -/
def u64sub (a b : Nat) : Nat := (a + (u64 - b % u64)) % u64

/-! ## Data model (src/yggpub.go lines 50-55 and the decoded admin records) -/

/-- One raw per-link record as decoded from the switchpeers response:
fields ip, bytes_sent, bytes_recvd, coords of src/yggpub.go lines 145-162.
Byte counters are uint64 values, embedded as Nat. -/
structure rawLink where
  ip : String
  bytes_sent : Nat
  bytes_recvd : Nat
  coords : String
deriving DecidableEq, Repr

/-- switchPortData, src/yggpub.go lines 50-55. -/
structure switchPortData where
  ports : List String
  txbytes : Nat
  rxbytes : Nat
  coords : String
deriving DecidableEq, Repr

/-- Lookup in the peermap association list: the embedding of reading the
Go map peermap at a key. -/
def lookupPD : List (String × switchPortData) → String → Option switchPortData
  | [], _ => none
  | (k, v) :: rest, ip => if k == ip then some v else lookupPD rest ip

/-- Store at an existing key of the peermap association list: the
embedding of writing the Go map peermap at a key already present. -/
def updatePD : List (String × switchPortData) → String → switchPortData →
    List (String × switchPortData)
  | [], _, _ => []
  | (k, v) :: rest, ip, pd => if k == ip then (k, pd) :: rest else (k, v) :: updatePD rest ip pd

/-! ## Aggregation (src/yggpub.go lines 140-165) -/

/-- One iteration of the aggregation loop over the switchpeers map,
src/yggpub.go lines 144-165.  State is the peermap plus totalbytes. -/
def aggStep (st : List (String × switchPortData) × Nat) (kv : String × rawLink) :
    List (String × switchPortData) × Nat :=
  let pm := st.1
  let total := st.2
  let k := kv.1
  let peer := kv.2
  match lookupPD pm peer.ip with
  | some peerdata =>
    let tx := peer.bytes_sent
    let rx := peer.bytes_recvd
    let pd2 : switchPortData :=
      { peerdata with
        txbytes := u64add peerdata.txbytes tx
        rxbytes := u64add peerdata.rxbytes rx
        ports := peerdata.ports ++ [k] }
    (updatePD pm peer.ip pd2, u64add total (u64add tx rx))
  | none =>
    let tx := peer.bytes_sent
    let rx := peer.bytes_recvd
    let pd2 : switchPortData :=
      { ports := [k], txbytes := tx, rxbytes := rx, coords := peer.coords }
    (pm ++ [(peer.ip, pd2)], u64add total (u64add tx rx))

/-- The aggregation loop, src/yggpub.go lines 140-165.  The Go map
iteration order is unspecified, so the input is an arbitrary list of
(link id, record) pairs; all theorems quantify over the order. -/
def aggregate (l : List (String × rawLink)) : List (String × switchPortData) × Nat :=
  l.foldl aggStep ([], 0)

/-- Total of bytes_sent plus bytes_recvd over a list of raw link records. -/
def sumRaw (l : List (String × rawLink)) : Nat :=
  (l.map (fun kv => kv.2.bytes_sent + kv.2.bytes_recvd)).sum

/-- Total of txbytes plus rxbytes over the peermap entries. -/
def sumVals (pm : List (String × switchPortData)) : Nat :=
  (pm.map (fun kv => kv.2.txbytes + kv.2.rxbytes)).sum

theorem u64_pos : 0 < u64 := by decide

theorem sumVals_append (pm : List (String × switchPortData)) (x : String × switchPortData) :
    sumVals (pm ++ [x]) = sumVals pm + (x.2.txbytes + x.2.rxbytes) := by
  simp [sumVals]

theorem sumVals_updatePD (pm : List (String × switchPortData)) (ip : String)
    (pd pd2 : switchPortData) (h : lookupPD pm ip = some pd) :
    sumVals (updatePD pm ip pd2) + (pd.txbytes + pd.rxbytes)
      = sumVals pm + (pd2.txbytes + pd2.rxbytes) := by
  induction pm with
  | nil => simp [lookupPD] at h
  | cons hd tl ih =>
    obtain ⟨k, v⟩ := hd
    simp only [lookupPD] at h
    by_cases hk : (k == ip) = true
    · rw [if_pos hk] at h
      injection h with h
      subst h
      simp only [updatePD, if_pos hk, sumVals, List.map_cons, List.sum_cons]
      ring
    · rw [if_neg hk] at h
      simp only [updatePD, if_neg hk, sumVals, List.map_cons, List.sum_cons]
      have := ih h
      simp only [sumVals] at this
      omega

theorem sumVals_foldl_le (l : List (String × rawLink)) :
    ∀ (pm : List (String × switchPortData)) (t : Nat),
      sumVals (List.foldl aggStep (pm, t) l).1 ≤ sumVals pm + sumRaw l := by
  induction l with
  | nil => intro pm t; simp [sumRaw]
  | cons hd tl ih =>
    intro pm t
    simp only [List.foldl_cons]
    have hsum : sumRaw (hd :: tl) = (hd.2.bytes_sent + hd.2.bytes_recvd) + sumRaw tl := by
      simp [sumRaw]
    rw [hsum]
    cases hl : lookupPD pm hd.2.ip with
    | none =>
      have hstep : aggStep (pm, t) hd
          = (pm ++ [(hd.2.ip,
              { ports := [hd.1], txbytes := hd.2.bytes_sent, rxbytes := hd.2.bytes_recvd,
                coords := hd.2.coords })],
             u64add t (u64add hd.2.bytes_sent hd.2.bytes_recvd)) := by
        simp [aggStep, hl]
      rw [hstep]
      have := ih (pm ++ [(hd.2.ip,
          { ports := [hd.1], txbytes := hd.2.bytes_sent, rxbytes := hd.2.bytes_recvd,
            coords := hd.2.coords })]) (u64add t (u64add hd.2.bytes_sent hd.2.bytes_recvd))
      rw [sumVals_append] at this
      simp only at this
      omega
    | some pd =>
      have hstep : aggStep (pm, t) hd
          = (updatePD pm hd.2.ip
              { pd with txbytes := u64add pd.txbytes hd.2.bytes_sent,
                        rxbytes := u64add pd.rxbytes hd.2.bytes_recvd,
                        ports := pd.ports ++ [hd.1] },
             u64add t (u64add hd.2.bytes_sent hd.2.bytes_recvd)) := by
        simp [aggStep, hl]
      rw [hstep]
      have hupd := sumVals_updatePD pm hd.2.ip pd
        { pd with txbytes := u64add pd.txbytes hd.2.bytes_sent,
                  rxbytes := u64add pd.rxbytes hd.2.bytes_recvd,
                  ports := pd.ports ++ [hd.1] } hl
      simp only at hupd
      have htx : u64add pd.txbytes hd.2.bytes_sent ≤ pd.txbytes + hd.2.bytes_sent :=
        Nat.mod_le _ _
      have hrx : u64add pd.rxbytes hd.2.bytes_recvd ≤ pd.rxbytes + hd.2.bytes_recvd :=
        Nat.mod_le _ _
      have := ih (updatePD pm hd.2.ip
          { pd with txbytes := u64add pd.txbytes hd.2.bytes_sent,
                    rxbytes := u64add pd.rxbytes hd.2.bytes_recvd,
                    ports := pd.ports ++ [hd.1] })
        (u64add t (u64add hd.2.bytes_sent hd.2.bytes_recvd))
      omega

theorem sumVals_foldl_modeq (l : List (String × rawLink)) :
    ∀ (pm : List (String × switchPortData)) (t : Nat),
      Nat.ModEq u64 (sumVals (List.foldl aggStep (pm, t) l).1) (sumVals pm + sumRaw l) := by
  induction l with
  | nil => intro pm t; simp [sumRaw, Nat.ModEq]
  | cons hd tl ih =>
    intro pm t
    simp only [List.foldl_cons]
    have hsum : sumRaw (hd :: tl) = (hd.2.bytes_sent + hd.2.bytes_recvd) + sumRaw tl := by
      simp [sumRaw]
    rw [hsum]
    cases hl : lookupPD pm hd.2.ip with
    | none =>
      have hstep : aggStep (pm, t) hd
          = (pm ++ [(hd.2.ip,
              { ports := [hd.1], txbytes := hd.2.bytes_sent, rxbytes := hd.2.bytes_recvd,
                coords := hd.2.coords })],
             u64add t (u64add hd.2.bytes_sent hd.2.bytes_recvd)) := by
        simp [aggStep, hl]
      rw [hstep]
      have := ih (pm ++ [(hd.2.ip,
          { ports := [hd.1], txbytes := hd.2.bytes_sent, rxbytes := hd.2.bytes_recvd,
            coords := hd.2.coords })]) (u64add t (u64add hd.2.bytes_sent hd.2.bytes_recvd))
      rw [sumVals_append] at this
      simp only at this
      have heq : sumVals pm + (hd.2.bytes_sent + hd.2.bytes_recvd) + sumRaw tl
          = sumVals pm + ((hd.2.bytes_sent + hd.2.bytes_recvd) + sumRaw tl) := by ring
      exact heq ▸ this
    | some pd =>
      set pd2 : switchPortData :=
        { pd with txbytes := u64add pd.txbytes hd.2.bytes_sent,
                  rxbytes := u64add pd.rxbytes hd.2.bytes_recvd,
                  ports := pd.ports ++ [hd.1] } with hpd2
      have hstep : aggStep (pm, t) hd
          = (updatePD pm hd.2.ip pd2, u64add t (u64add hd.2.bytes_sent hd.2.bytes_recvd)) := by
        simp [aggStep, hl, hpd2]
      rw [hstep]
      have hupd := sumVals_updatePD pm hd.2.ip pd pd2 hl
      have hv2 : Nat.ModEq u64 (pd2.txbytes + pd2.rxbytes)
          ((pd.txbytes + pd.rxbytes) + (hd.2.bytes_sent + hd.2.bytes_recvd)) := by
        simp only [hpd2, u64add]
        calc (pd.txbytes + hd.2.bytes_sent) % u64 + (pd.rxbytes + hd.2.bytes_recvd) % u64
            ≡ (pd.txbytes + hd.2.bytes_sent) + (pd.rxbytes + hd.2.bytes_recvd) [MOD u64] :=
              Nat.ModEq.add (Nat.mod_modEq _ _) (Nat.mod_modEq _ _)
          _ = (pd.txbytes + pd.rxbytes) + (hd.2.bytes_sent + hd.2.bytes_recvd) := by ring
      have hmain := ih (updatePD pm hd.2.ip pd2)
        (u64add t (u64add hd.2.bytes_sent hd.2.bytes_recvd))
      -- replace sumVals (updatePD ...) using the update equation, modulo u64
      have h1 : Nat.ModEq u64
          (sumVals (updatePD pm hd.2.ip pd2) + (pd.txbytes + pd.rxbytes) + sumRaw tl)
          (sumVals pm + ((pd.txbytes + pd.rxbytes)
            + (hd.2.bytes_sent + hd.2.bytes_recvd)) + sumRaw tl) := by
        rw [hupd]
        exact Nat.ModEq.add_right _ (Nat.ModEq.add_left _ hv2)
      have h2 : Nat.ModEq u64
          (sumVals (updatePD pm hd.2.ip pd2) + sumRaw tl)
          (sumVals pm + (hd.2.bytes_sent + hd.2.bytes_recvd) + sumRaw tl) := by
        have h1' : Nat.ModEq u64
            (sumVals (updatePD pm hd.2.ip pd2) + sumRaw tl + (pd.txbytes + pd.rxbytes))
            (sumVals pm + (hd.2.bytes_sent + hd.2.bytes_recvd) + sumRaw tl
              + (pd.txbytes + pd.rxbytes)) := by
          calc sumVals (updatePD pm hd.2.ip pd2) + sumRaw tl + (pd.txbytes + pd.rxbytes)
              = sumVals (updatePD pm hd.2.ip pd2) + (pd.txbytes + pd.rxbytes) + sumRaw tl := by
                ring
            _ ≡ sumVals pm + ((pd.txbytes + pd.rxbytes)
                + (hd.2.bytes_sent + hd.2.bytes_recvd)) + sumRaw tl [MOD u64] := h1
            _ = sumVals pm + (hd.2.bytes_sent + hd.2.bytes_recvd) + sumRaw tl
                + (pd.txbytes + pd.rxbytes) := by ring
        exact Nat.ModEq.add_right_cancel (Nat.ModEq.refl _) h1'
      have heq : sumVals pm + (hd.2.bytes_sent + hd.2.bytes_recvd) + sumRaw tl
          = sumVals pm + ((hd.2.bytes_sent + hd.2.bytes_recvd) + sumRaw tl) := by ring
      exact heq ▸ (hmain.trans h2)

theorem total_foldl (l : List (String × rawLink)) :
    ∀ (pm : List (String × switchPortData)) (t : Nat), t < u64 →
      (List.foldl aggStep (pm, t) l).2 = (t + sumRaw l) % u64 := by
  induction l with
  | nil =>
    intro pm t ht
    simp [sumRaw, Nat.mod_eq_of_lt ht]
  | cons hd tl ih =>
    intro pm t ht
    simp only [List.foldl_cons]
    have hsum : sumRaw (hd :: tl) = (hd.2.bytes_sent + hd.2.bytes_recvd) + sumRaw tl := by
      simp [sumRaw]
    have hstep2 : (aggStep (pm, t) hd).2 = u64add t (u64add hd.2.bytes_sent hd.2.bytes_recvd) := by
      cases hl : lookupPD pm hd.2.ip <;> simp [aggStep, hl]
    have hlt : (aggStep (pm, t) hd).2 < u64 := by
      rw [hstep2]; exact Nat.mod_lt _ u64_pos
    have hfold : List.foldl aggStep (aggStep (pm, t) hd) tl
        = List.foldl aggStep ((aggStep (pm, t) hd).1, (aggStep (pm, t) hd).2) tl := by
      rfl
    rw [hfold, ih _ _ hlt, hstep2, hsum]
    simp only [u64add]
    rw [Nat.mod_add_mod]
    have h1 : (hd.2.bytes_sent + hd.2.bytes_recvd) % u64
        ≡ hd.2.bytes_sent + hd.2.bytes_recvd [MOD u64] := Nat.mod_modEq _ _
    calc t + (hd.2.bytes_sent + hd.2.bytes_recvd) % u64 + sumRaw tl
        ≡ t + (hd.2.bytes_sent + hd.2.bytes_recvd) + sumRaw tl [MOD u64] :=
          (h1.add_left t).add_right _
      _ = t + ((hd.2.bytes_sent + hd.2.bytes_recvd) + sumRaw tl) := by ring

theorem aggregate_total (l : List (String × rawLink)) :
    (aggregate l).2 = sumRaw l % u64 := by
  have h := total_foldl l [] 0 (by decide)
  simpa [aggregate] using h

theorem aggregate_sumVals_modeq (l : List (String × rawLink)) :
    sumVals (aggregate l).1 % u64 = sumRaw l % u64 := by
  have h := sumVals_foldl_modeq l [] 0
  simpa [aggregate, sumVals, Nat.ModEq] using h

theorem aggregate_sumVals_le (l : List (String × rawLink)) :
    sumVals (aggregate l).1 ≤ sumRaw l := by
  have h := sumVals_foldl_le l [] 0
  simpa [aggregate, sumVals] using h

theorem aggregate_exact (l : List (String × rawLink)) (h : sumRaw l < u64) :
    sumVals (aggregate l).1 = sumRaw l ∧ (aggregate l).2 = sumRaw l := by
  have h2 := aggregate_total l
  have h1 := aggregate_sumVals_modeq l
  have hle := aggregate_sumVals_le l
  refine ⟨?_, by rw [h2, Nat.mod_eq_of_lt h]⟩
  calc sumVals (aggregate l).1
      = sumVals (aggregate l).1 % u64 := (Nat.mod_eq_of_lt (lt_of_le_of_lt hle h)).symm
    _ = sumRaw l % u64 := h1
    _ = sumRaw l := Nat.mod_eq_of_lt h

/-- Claim C1: for every input list of raw link records, aggregation
conserves bytes.  In uint64 arithmetic (reduction modulo 2 ^ 64) the sum
of txbytes plus rxbytes over all aggregated switchPortData entries, the
sum of bytes_sent plus bytes_recvd over all raw records, and the running
totalbytes accumulator all agree; when the true total is below 2 ^ 64
(every real execution) the equalities are exact, with no reduction. -/
theorem C1_aggregation_conserves_bytes (l : List (String × rawLink)) :
    (sumVals (aggregate l).1 % u64 = sumRaw l % u64 ∧ (aggregate l).2 = sumRaw l % u64)
    ∧ (sumRaw l < u64 →
        sumVals (aggregate l).1 = sumRaw l ∧ (aggregate l).2 = sumRaw l) :=
  ⟨⟨aggregate_sumVals_modeq l, aggregate_total l⟩, fun h => aggregate_exact l h⟩

/-- Concrete instantiation of claim C1 at a two-record input sharing one
peer address, with the bound hypothesis discharged by evaluation. -/
theorem C1_aggregation_conserves_bytes_witness :
    (sumVals (aggregate [(("a"), ⟨("pA"), 10, 20, ("[]")⟩),
        (("b"), ⟨("pA"), 5, 5, ("[]")⟩)]).1 % u64
      = sumRaw [(("a"), ⟨("pA"), 10, 20, ("[]")⟩), (("b"), ⟨("pA"), 5, 5, ("[]")⟩)] % u64)
    ∧ (sumRaw [(("a"), ⟨("pA"), 10, 20, ("[]")⟩), (("b"), ⟨("pA"), 5, 5, ("[]")⟩)] < u64
    ∧ sumVals (aggregate [(("a"), ⟨("pA"), 10, 20, ("[]")⟩),
        (("b"), ⟨("pA"), 5, 5, ("[]")⟩)]).1
      = sumRaw [(("a"), ⟨("pA"), 10, 20, ("[]")⟩), (("b"), ⟨("pA"), 5, 5, ("[]")⟩)]) :=
  ⟨(C1_aggregation_conserves_bytes _).1.1,
   by decide,
   ((C1_aggregation_conserves_bytes _).2 (by decide)).1⟩

/-! ## Rendering (src/yggpub.go lines 167-196) -/

/-- strings.Join with separator comma-space, as used at src/yggpub.go
line 173. -/
def joinComma : List String → String
  | [] => ""
  | [s] => s
  | s :: rest => s ++ ", " ++ joinComma rest

/-- The ports label of one peer block, src/yggpub.go lines 171-176:
plural comma-joined form for more than one link, singular form otherwise.
Go indexes ports[0]; the aggregation always produces a non-empty ports
list, so the default for the empty list is never reached. -/
def portsString (ports : List String) : String :=
  if ports.length > 1 then "switch ports " ++ joinComma ports
  else "switch port " ++ ports.headD ("")

/-- Models the Bytes function of the external go-humanize dependency
(SI-unit byte formatting such as 1.2 MB).  That library is outside this
repository and no claim constrains its exact text; it only supplies the
human-readable byte counts inside rendered blocks. -/
def humanizeBytes (n : Nat) : String :=
  if n < 10 then toString n ++ " B"
  else
    let e := ((List.range 7).filter (fun j => 1000 ^ j ≤ n)).length - 1
    let p := 1000 ^ e
    let suffix := [("B"), ("kB"), ("MB"), ("GB"), ("TB"), ("PB"), ("EB")].getD e ("EB")
    let val10 := (20 * n + p) / (2 * p)
    if val10 < 100 then
      toString (val10 / 10) ++ "." ++ toString (val10 % 10) ++ " " ++ suffix
    else
      toString ((val10 + 5) / 10) ++ " " ++ suffix

/-- The four chart series values of one peer block, src/yggpub.go line
182-183: running offset, sent bytes, received bytes, and the uint64
remainder totalbytes - offset - txbytes - rxbytes. -/
def seriesFor (totalbytes offset : Nat) (peer : switchPortData) : Nat × Nat × Nat × Nat :=
  (offset, peer.txbytes, peer.rxbytes,
    u64sub (u64sub (u64sub totalbytes offset) peer.txbytes) peer.rxbytes)

/-- One rendered peer block, src/yggpub.go lines 170-188. -/
def renderBlock (totalbytes count offset : Nat) (ipv6 : String) (peer : switchPortData) :
    String :=
  let ports := portsString peer.ports
  let coords := if peer.coords == "[]" then "Root" else peer.coords
  let s := seriesFor totalbytes offset peer
  "<div class=\x27node\x27>\n"
    ++ "<div class=\x27ct-chart ct-perfect-fourth\x27 id=\x27ct-" ++ toString count
    ++ "\x27></div>\n"
    ++ "<script>\nnew Chartist.Pie(\x27#ct-" ++ toString count
    ++ "\x27, \x7b series: [" ++ toString s.1 ++ ", " ++ toString s.2.1 ++ ", "
    ++ toString s.2.2.1 ++ ", " ++ toString s.2.2.2
    ++ "] \x7d, \x7b donut: true, donutWidth: 25, donutSolid: true, startbytes: 0, showLabel: false \x7d);\n</script>\n"
    ++ "<div id=\x27ipv6\x27>" ++ ipv6 ++ "</div>\n"
    ++ "<div>" ++ coords ++ " attached to " ++ ports ++ "</div>\n"
    ++ "<div>" ++ humanizeBytes peer.txbytes ++ " sent</div>\n"
    ++ "<div>" ++ humanizeBytes peer.rxbytes ++ " received</div>\n"
    ++ "</div>\n"

/-- The render loop over the peermap, src/yggpub.go lines 168-191, with
state count and offset.  Besides the accumulated page fragment it also
returns the list of emitted chart series quadruples, so that theorems can
speak about the numbers embedded in the markup. -/
def renderLoop (totalbytes : Nat) :
    List (String × switchPortData) → Nat → Nat → String × List (Nat × Nat × Nat × Nat)
  | [], _, _ => ("", [])
  | (ipv6, peer) :: rest, count, offset =>
    let s := seriesFor totalbytes offset peer
    let r := renderLoop totalbytes rest (count + 1)
      (u64add offset (u64add peer.rxbytes peer.txbytes))
    (renderBlock totalbytes count offset ipv6 peer ++ r.1, s :: r.2)

/-- The no-connected-peers notice, src/yggpub.go line 195. -/
def noPeersNotice : String := "<div>There are no connected peers at this time.</div>"

/-- The complete peers fragment, src/yggpub.go lines 167-196: the loop
output, followed by the notice when the peermap is empty. -/
def renderPeers (peermap : List (String × switchPortData)) (totalbytes : Nat) : String :=
  let s := (renderLoop totalbytes peermap 0 0).1
  if peermap.length = 0 then s ++ noPeersNotice else s

/-- Spec-side description of the chart series (spec section 4.3): for
each peer in order, the running offset is the sum of bytes of all
previously rendered peers, the middle values are this peer sent and
received bytes, and the remainder is totalBytes - offset - sent -
received, the offset growing by sent + received after each peer.  Written
from the words of the spec, to be compared with the render loop. -/
def seriesSpecFrom (totalbytes acc : Nat) :
    List (String × switchPortData) → List (Nat × Nat × Nat × Nat)
  | [] => []
  | (_, p) :: rest =>
    (acc, p.txbytes, p.rxbytes, totalbytes - acc - p.txbytes - p.rxbytes)
      :: seriesSpecFrom totalbytes (acc + p.txbytes + p.rxbytes) rest

theorem u64sub_eq_sub (a b : Nat) (hb : b ≤ a) (ha : a < u64) : u64sub a b = a - b := by
  have hbu : b < u64 := lt_of_le_of_lt hb ha
  simp only [u64sub, Nat.mod_eq_of_lt hbu]
  have h : a + (u64 - b) = (a - b) + u64 := by omega
  rw [h, Nat.add_mod_right, Nat.mod_eq_of_lt (by omega)]

theorem u64add_eq_add (a b : Nat) (h : a + b < u64) : u64add a b = a + b := by
  simp only [u64add]; exact Nat.mod_eq_of_lt h

theorem renderLoop_series (totalbytes : Nat) (ht : totalbytes < u64) :
    ∀ (ps : List (String × switchPortData)) (acc count : Nat),
      acc + sumVals ps ≤ totalbytes →
      (renderLoop totalbytes ps count acc).2 = seriesSpecFrom totalbytes acc ps := by
  intro ps
  induction ps with
  | nil => intro acc count _; rfl
  | cons hd tl ih =>
    intro acc count h
    obtain ⟨ipv6, p⟩ := hd
    simp only [sumVals, List.map_cons, List.sum_cons] at h
    have hvtl : sumVals tl = (tl.map (fun kv => kv.2.txbytes + kv.2.rxbytes)).sum := rfl
    rw [← hvtl] at h
    have h1 : u64sub totalbytes acc = totalbytes - acc :=
      u64sub_eq_sub _ _ (by omega) ht
    have h2 : u64sub (totalbytes - acc) p.txbytes = totalbytes - acc - p.txbytes :=
      u64sub_eq_sub _ _ (by omega) (by omega)
    have h3 : u64sub (totalbytes - acc - p.txbytes) p.rxbytes
        = totalbytes - acc - p.txbytes - p.rxbytes :=
      u64sub_eq_sub _ _ (by omega) (by omega)
    have h4 : u64add p.rxbytes p.txbytes = p.rxbytes + p.txbytes :=
      u64add_eq_add _ _ (by omega)
    have h5 : u64add acc (p.rxbytes + p.txbytes) = acc + (p.rxbytes + p.txbytes) :=
      u64add_eq_add _ _ (by omega)
    simp only [renderLoop, seriesSpecFrom, seriesFor, h1, h2, h3, h4, h5]
    have h6 : acc + (p.rxbytes + p.txbytes) = acc + p.txbytes + p.rxbytes := by ring
    rw [h6]
    congr 1
    exact ih (acc + p.txbytes + p.rxbytes) (count + 1) (by omega)

theorem seriesSpecFrom_mem (totalbytes : Nat) :
    ∀ (ps : List (String × switchPortData)) (acc : Nat), acc + sumVals ps ≤ totalbytes →
      ∀ s ∈ seriesSpecFrom totalbytes acc ps,
        s.1 + s.2.1 + s.2.2.1 ≤ totalbytes
        ∧ s.1 + s.2.1 + s.2.2.1 + s.2.2.2 = totalbytes := by
  intro ps
  induction ps with
  | nil => intro acc _ s hs; simp [seriesSpecFrom] at hs
  | cons hd tl ih =>
    intro acc h s hs
    obtain ⟨ipv6, p⟩ := hd
    simp only [sumVals, List.map_cons, List.sum_cons] at h
    have hvtl : sumVals tl = (tl.map (fun kv => kv.2.txbytes + kv.2.rxbytes)).sum := rfl
    rw [← hvtl] at h
    simp only [seriesSpecFrom, List.mem_cons] at hs
    cases hs with
    | inl hs =>
      subst hs
      simp only
      omega
    | inr hs =>
      exact ih (acc + p.txbytes + p.rxbytes) (by omega) s hs

/-- Claim C4: two raw link records sharing one peer address aggregate
into exactly one switchPortData entry for that address; its ports list
holds both link identifiers in encounter order, its counters are the
uint64 sums of the two records, and its coordinate path is the one of the
first record encountered. -/
theorem C4_grouping_two_records (k1 k2 : String) (r1 r2 : rawLink) (h : r2.ip = r1.ip) :
    (aggregate [(k1, r1), (k2, r2)]).1
      = [(r1.ip,
          { ports := [k1, k2], txbytes := u64add r1.bytes_sent r2.bytes_sent,
            rxbytes := u64add r1.bytes_recvd r2.bytes_recvd, coords := r1.coords })] := by
  simp [aggregate, aggStep, lookupPD, updatePD, h]

/-- Concrete instantiation of claim C4: two links to address pA. -/
theorem C4_grouping_two_records_witness :
    (⟨("pA"), 5, 6, ("[1]")⟩ : rawLink).ip = (⟨("pA"), 1, 2, ("[]")⟩ : rawLink).ip
    ∧ (aggregate [(("a"), ⟨("pA"), 1, 2, ("[]")⟩), (("b"), ⟨("pA"), 5, 6, ("[1]")⟩)]).1
      = [(("pA"),
          { ports := [("a"), ("b")], txbytes := u64add 1 5, rxbytes := u64add 2 6,
            coords := ("[]") })] :=
  ⟨rfl, C4_grouping_two_records ("a") ("b") ⟨("pA"), 1, 2, ("[]")⟩ ⟨("pA"), 5, 6, ("[1]")⟩ rfl⟩

/-- Claim C5: when no uint64 subtraction underflows (the sum of all
rendered byte totals is at most totalbytes, itself a uint64 value) the
chart series emitted by the render loop are exactly the spec-side
description: at each position the offset is the sum of sent plus received
bytes of all previously rendered peers, and the remainder is totalBytes
minus that offset minus this peer sent bytes minus its received bytes,
the offset growing by sent plus received after every peer. -/
theorem C5_offset_accumulation (ps : List (String × switchPortData)) (totalbytes : Nat)
    (ht : totalbytes < u64) (h : sumVals ps ≤ totalbytes) :
    (renderLoop totalbytes ps 0 0).2 = seriesSpecFrom totalbytes 0 ps :=
  renderLoop_series totalbytes ht ps 0 0 (by omega)

/-- Concrete instantiation of claim C5, the example of the spec: peers
P1, P2, P3 with totals (10,20), (5,5), (1,1) and totalBytes 42 give
remainder 42 - 30 - 5 - 5 = 2 for P2 and 42 - 40 - 1 - 1 = 0 for P3. -/
theorem C5_offset_accumulation_witness :
    sumVals [(("P1"), ⟨[("1")], 10, 20, ("[]")⟩), (("P2"), ⟨[("2")], 5, 5, ("[]")⟩),
        (("P3"), ⟨[("3")], 1, 1, ("[]")⟩)] ≤ 42
    ∧ (42 : Nat) < u64
    ∧ (renderLoop 42 [(("P1"), ⟨[("1")], 10, 20, ("[]")⟩), (("P2"), ⟨[("2")], 5, 5, ("[]")⟩),
        (("P3"), ⟨[("3")], 1, 1, ("[]")⟩)] 0 0).2
      = [(0, 10, 20, 12), (30, 5, 5, 2), (40, 1, 1, 0)] :=
  ⟨by decide, by decide,
   (C5_offset_accumulation
      [(("P1"), ⟨[("1")], 10, 20, ("[]")⟩), (("P2"), ⟨[("2")], 5, 5, ("[]")⟩),
       (("P3"), ⟨[("3")], 1, 1, ("[]")⟩)] 42 (by decide) (by decide)).trans (by decide)⟩

/-- Claim C9: when totalbytes comes from the same aggregation pass (and
the true byte total fits in uint64, as in every real execution), each
emitted series quadruple sums exactly to totalbytes, and offset + sent +
received never exceeds totalbytes, so the uint64 subtraction
totalbytes - offset - txbytes - rxbytes never underflows. -/
theorem C9_series_sum_invariant (l : List (String × rawLink)) (h : sumRaw l < u64) :
    ∀ s ∈ (renderLoop (aggregate l).2 (aggregate l).1 0 0).2,
      s.1 + s.2.1 + s.2.2.1 + s.2.2.2 = (aggregate l).2
      ∧ s.1 + s.2.1 + s.2.2.1 ≤ (aggregate l).2 := by
  obtain ⟨hsv, htot⟩ := aggregate_exact l h
  intro s hs
  rw [renderLoop_series (aggregate l).2 (by omega) _ 0 0 (by omega)] at hs
  have hm := seriesSpecFrom_mem (aggregate l).2 (aggregate l).1 0 (by omega) s hs
  exact ⟨hm.2, hm.1⟩

/-- Concrete instantiation of claim C9 at a one-record input. -/
theorem C9_series_sum_invariant_witness :
    sumRaw [(("a"), ⟨("p"), 10, 20, ("[]")⟩)] < u64
    ∧ ((0, 10, 20, 0) ∈ (renderLoop (aggregate [(("a"), ⟨("p"), 10, 20, ("[]")⟩)]).2
        (aggregate [(("a"), ⟨("p"), 10, 20, ("[]")⟩)]).1 0 0).2
    ∧ (0 + 10 + 20 + 0 = (aggregate [(("a"), ⟨("p"), 10, 20, ("[]")⟩)]).2
       ∧ 0 + 10 + 20 ≤ (aggregate [(("a"), ⟨("p"), 10, 20, ("[]")⟩)]).2)) :=
  ⟨by decide, by decide,
   C9_series_sum_invariant [(("a"), ⟨("p"), 10, 20, ("[]")⟩)] (by decide)
     (0, 10, 20, 0) (by decide)⟩

/-- Claim C8: a single-link peer is labelled with the singular switch
port form, a multi-link peer with the plural comma-joined form, and an
empty peer map renders exactly the no-connected-peers notice (hence no
chart blocks). -/
theorem C8_ports_text_and_empty_notice :
    (∀ p : String, portsString [p] = "switch port " ++ p)
    ∧ (∀ (p q : String) (rest : List String),
        portsString (p :: q :: rest) = "switch ports " ++ joinComma (p :: q :: rest))
    ∧ (∀ totalbytes : Nat, renderPeers [] totalbytes = noPeersNotice) := by
  refine ⟨fun p => ?_, fun p q rest => ?_, fun totalbytes => ?_⟩
  · simp [portsString]
  · have hl : (p :: q :: rest).length > 1 := by simp
    simp [portsString, hl]
  · simp [renderPeers, renderLoop, noPeersNotice]

/-! ## JSON values and the dashboard handler (src/yggpub.go lines 67-202) -/

/-- A decoded generic JSON value, as Go json.Unmarshal produces into
map[string]interface, with JSON numbers decoded through float64.  The
num payload is the uint64 value the Go code obtains from the float64
(the decoding itself is modelled separately by roundF64 below). -/
inductive JVal where
  | null
  | bool (b : Bool)
  | num (n : Nat)
  | str (s : String)
  | arr (xs : List JVal)
  | obj (fields : List (String × JVal))

/-- Reading a Go map of decoded JSON at a key; a missing key yields the
nil interface value, embedded as none. -/
def jsonLookup : List (String × JVal) → String → Option JVal
  | [], _ => none
  | (k, v) :: rest, key => if k == key then some v else jsonLookup rest key

/-- A Go string type assertion x.(string): succeeds only on a string
value; on a missing key or any other shape the Go code panics, embedded
as none. -/
def asString : Option JVal → Option String
  | some (.str s) => some s
  | _ => none

/-- A Go map type assertion x.(map[string]interface): succeeds only on an
object value; otherwise the Go code panics, embedded as none. -/
def asObj : Option JVal → Option (List (String × JVal))
  | some (.obj o) => some o
  | _ => none

/-- The per-record type assertions of the aggregation loop, src/yggpub.go
lines 145-162, factored out ahead of aggregate (in the Go code they are
interleaved with the aggregation itself).  Each switchpeers entry must be
an object with a string ip and float64 bytes_sent and bytes_recvd; the
coords assertion only runs for a record whose ip has not been aggregated
yet (the Go ok-branch at lines 147-153 never reads coords), so for a
repeated ip the record is accepted without looking at coords, and its
coords slot (which aggregate never reads for a repeated ip) is filled
with the empty string.  seen is the set of ips already processed,
matching the keys of the growing Go peermap.  Any failing assertion
panics (none). -/
def extractPeersFrom (seen : List String) :
    List (String × JVal) → Option (List (String × rawLink))
  | [] => some []
  | (k, v) :: rest =>
    match v with
    | .obj peer =>
      match jsonLookup peer ("ip") with
      | some (.str ip) =>
        match jsonLookup peer ("bytes_sent"), jsonLookup peer ("bytes_recvd") with
        | some (.num bs), some (.num br) =>
          if seen.contains ip then
            match extractPeersFrom seen rest with
            | some tail => some ((k, ⟨ip, bs, br, ("")⟩) :: tail)
            | none => none
          else
            match jsonLookup peer ("coords") with
            | some (.str co) =>
              match extractPeersFrom (ip :: seen) rest with
              | some tail => some ((k, ⟨ip, bs, br, co⟩) :: tail)
              | none => none
            | _ => none
        | _, _ => none
      | _ => none
    | _ => none

/-- The type assertions of the whole switchpeers iteration, starting from
the empty peermap. -/
def extractPeers (peers : List (String × JVal)) : Option (List (String × rawLink)) :=
  extractPeersFrom [] peers

/-- Auxiliary for strReplace: whether pat is an initial segment of s. -/
def leadsWith : List Char → List Char → Bool
  | [], _ => true
  | _ :: _, [] => false
  | a :: as, b :: bs => a = b && leadsWith as bs

/-- Auxiliary for strReplace: one fuel unit per character of s; each step
either copies one character or substitutes one non-overlapping match. -/
def replFuel : Nat → List Char → List Char → List Char → List Char
  | 0, s, _, _ => s
  | f + 1, s, pat, rep =>
    match s with
    | [] => []
    | c :: rest =>
      if leadsWith pat s && !pat.isEmpty then rep ++ replFuel f (s.drop pat.length) pat rep
      else c :: replFuel f rest pat rep

/-- Go strings.Replace(s, pat, rep, -1) for non-empty pat: replace every
non-overlapping occurrence, scanning left to right.  (The Go stdlib
function is outside this repository; the handler only ever calls it with
the two non-empty placeholder tokens.) -/
def strReplace (s pat rep : String) : String :=
  String.mk (replFuel s.data.length s.data pat.data rep.data)

/-! ## fmt.Fprintf with no operands

The handler writes every page with fmt.Fprintf(w, s) where s is the
substituted template and no operands follow (src/yggpub.go lines 102,
115, 122, 128, 201), so the Go fmt package treats s as a format string:
literal text is copied, a percent sign starts a verb (flags, optional
argument index, width, precision, then the verb rune), a double percent
emits one percent, and since the operand list is empty every other verb
reports itself as missing (or as a bad index when an explicit argument
index appeared).  The definitions below are the fmt doPrintf scanning
loop specialized to zero operands; fmt is Go standard library behaviour
outside this repository.  (The parse of a numeric width overflowing
int32, which fmt treats as malformed, is not modelled; none of the
theorems below instantiate such a template.) -/

/-- Consume the fmt flag characters sharp, zero, plus, minus, space. -/
def dropFlags : List Char → List Char
  | [] => []
  | c :: rest =>
    if c = '#' ∨ c = '0' ∨ c = '+' ∨ c = '-' ∨ c = ' ' then dropFlags rest
    else c :: rest

/-- Consume a run of decimal digits (fmt parsenum); the flag reports
whether at least one digit was present. -/
def dropDigits : List Char → Bool × List Char
  | [] => (false, [])
  | c :: rest =>
    if c.isDigit then
      let r := dropDigits rest
      (true, r.2)
    else (false, c :: rest)

/-- Position of the first closing bracket, for fmt parseArgNumber. -/
def findRBracket : List Char → Option Nat
  | [] => none
  | c :: rest =>
    if c = ']' then some 0
    else (findRBracket rest).map (fun n => n + 1)

/-- fmt argNumber with zero operands: an explicit argument index [n] is
always out of range, so whenever a bracket is seen the verb is marked bad
and the bracket group is skipped (only the bracket itself when it is not
followed by at least two characters or never closed, per parseArgNumber);
the returned flag is the new afterIndex. -/
def argNumberZero : List Char → Bool × List Char
  | [] => (false, [])
  | c :: rest =>
    if c = '[' then
      if rest.length < 2 then (true, rest)
      else
        match findRBracket rest with
        | some j => (true, rest.drop (j + 1))
        | none => (true, rest)
    else (false, c :: rest)

/-- One verb of the fmt scanning loop with zero operands, given the
characters after the percent sign: returns the emitted characters and the
remaining format.  Width and precision stars report BADWIDTH and BADPREC
inline (the operand list is empty); the final verb emits a literal
percent for the percent verb, BADINDEX after an explicit argument index,
and MISSING otherwise; a format ending before any verb rune emits
NOVERB. -/
def fmtOneVerb (u0 : List Char) : List Char × List Char :=
  let u1 := dropFlags u0
  let st1 := argNumberZero u1
  let afterIndex1 := st1.1
  let good1 := !st1.1
  let u2 := st1.2
  let wres : List Char × Bool × Bool × List Char :=
    match u2 with
    | '*' :: t => (("%!(BADWIDTH)").data, good1, false, t)
    | _ =>
      let d := dropDigits u2
      ([], good1 && !(afterIndex1 && d.1), afterIndex1, d.2)
  let out1 := wres.1
  let good2 := wres.2.1
  let afterIndex2 := wres.2.2.1
  let u3 := wres.2.2.2
  let pres : List Char × Bool × Bool × List Char :=
    match u3 with
    | '.' :: t =>
      if t.isEmpty then ([], good2, afterIndex2, u3)
      else
        let good3 := good2 && !afterIndex2
        let st2 := argNumberZero t
        let good4 := good3 && !st2.1
        match st2.2 with
        | '*' :: t2 => (("%!(BADPREC)").data, good4, false, t2)
        | t1 => ([], good4, st2.1, (dropDigits t1).2)
    | _ => ([], good2, afterIndex2, u3)
  let out2 := pres.1
  let good5 := pres.2.1
  let afterIndex4 := pres.2.2.1
  let u4 := pres.2.2.2
  let fres : Bool × List Char :=
    if afterIndex4 then (good5, u4)
    else
      let st3 := argNumberZero u4
      (good5 && !st3.1, st3.2)
  let good6 := fres.1
  let u5 := fres.2
  match u5 with
  | [] => (out1 ++ out2 ++ ("%!(NOVERB)").data, [])
  | v :: u6 =>
    if v = '%' then (out1 ++ out2 ++ ['%'], u6)
    else if !good6 then (out1 ++ out2 ++ ('%' :: '!' :: v :: ("(BADINDEX)").data), u6)
    else (out1 ++ out2 ++ ('%' :: '!' :: v :: ("(MISSING)").data), u6)

/-- The fmt scanning loop with zero operands: copy literal characters,
process one verb at each percent sign.  One fuel unit per character of
the format suffices, since every iteration consumes at least the percent
sign. -/
def fmtScan : Nat → List Char → List Char
  | 0, _ => []
  | _ + 1, [] => []
  | f + 1, c :: rest =>
    if c ≠ '%' then c :: fmtScan f rest
    else
      let r := fmtOneVerb rest
      r.1 ++ fmtScan f r.2

/-- Go fmt.Fprintf(w, s) with no variadic operands, as called at
src/yggpub.go lines 102, 115, 122, 128 and 201: the written bytes are the
format-processing of s with an empty operand list. -/
def goFprintf (s : String) : String :=
  String.mk (fmtScan s.data.length s.data)

/-- The peers fragment computed on the success path, src/yggpub.go lines
132-196: aggregate, render every peer block, and fall back to the
no-peers notice for an empty peermap. -/
def peersFragment (raws : List (String × rawLink)) : String :=
  renderPeers (aggregate raws).1 (aggregate raws).2

/-- The outcome of one dashboard request in the embedding:
log.Fatalln (process exit), a runtime panic from a failed type assertion,
a return without writing any body, or a written page body. -/
inductive HResult where
  | fatal
  | panicked
  | noBody
  | page (body : String)
deriving DecidableEq, Repr

/-- The per-request environment: the outcome of every external
interaction the handler performs, in program order.  template is the
read of template.html (line 69); parsedAdmin the result of url.Parse on
the admin address (line 75); dialOK whether net.Dial succeeds (line 88);
marshalOK whether json.Marshal of the fixed request succeeds (line 100,
never false in practice); readN the byte count of the single read (line
113); unmarshalled the result of json.Unmarshal on those bytes (line
120). -/
structure AdminEnv where
  template : Option String
  parsedAdmin : Option (String × String × String)
  dialOK : Bool
  marshalOK : Bool
  readN : Nat
  unmarshalled : Option (List (String × JVal))

/-- The dashboard handler, src/yggpub.go lines 67-202, as a function of
the request environment and the configured node name.  Each early return
that writes an error message substitutes it for the peers placeholder
only, and every written body (error and success paths alike) passes
through goFprintf, because the code hands the substituted template to
fmt.Fprintf as the format string with no operands; a dial error logs and
returns without a body; missing or mistyped fields of the decoded
response panic. -/
def handler (env : AdminEnv) (nodename : String) : HResult :=
  match env.template with
  | none => .fatal
  | some b =>
    match env.parsedAdmin with
    | none => .fatal
    | some _ =>
      if !env.dialOK then .noBody
      else if !env.marshalOK then
        .page (goFprintf (strReplace b ("%PEERS%") ("Unable to marshal JSON")))
      else if env.readN = 0 then
        .page (goFprintf (strReplace b ("%PEERS%") ("No response from admin socket")))
      else
        match env.unmarshalled with
        | none => .page (goFprintf (strReplace b ("%PEERS%") ("Unable to unmarshal JSON")))
        | some m =>
          match asString (jsonLookup m ("status")) with
          | none => .panicked
          | some s =>
            if s != "success" then
              .page (goFprintf (strReplace b ("%PEERS%") ("Non-successful response")))
            else
              match asObj (jsonLookup m ("response")) with
              | none => .panicked
              | some resp =>
                match asObj (jsonLookup resp ("switchpeers")) with
                | none => .panicked
                | some peers =>
                  match extractPeers peers with
                  | none => .panicked
                  | some raws =>
                    .page (goFprintf (strReplace (strReplace b ("%HOSTNAME%") nodename)
                      ("%PEERS%") (peersFragment raws)))

/-- The configuration main assembles before listening, src/yggpub.go
lines 22-47: node name (default hostname, or the fallback literal when
the hostname lookup fails), admin socket address, listen address, and the
four registered routes.  main performs no validation of the admin
address; it only stores and logs it. -/
structure ServerConfig where
  nodename : String
  adminaddr : String
  listenaddr : String
  routes : List String
deriving DecidableEq, Repr

/-- Process startup, src/yggpub.go lines 22-47: resolve the default node
name, apply flag defaults, register the handlers.  Total: no input,
including an unparseable admin address, makes startup fail. -/
def mainStartup (hostname : Option String)
    (nodenameFlag adminaddrFlag listenaddrFlag : Option String) : ServerConfig :=
  let hn := hostname.getD ("Unnamed node")
  { nodename := nodenameFlag.getD hn
    adminaddr := adminaddrFlag.getD ("unix:///var/run/yggdrasil.sock")
    listenaddr := listenaddrFlag.getD ("[::]:80")
    routes := [("/"), ("/style.css"), ("/chartist.min.css"), ("/chartist.min.js")] }

/-- Claim C2, counterexample: a wrong-typed status field (a number) does
not produce the Non-successful response page; the Go type assertion
m[status].(string) panics.  The same happens when status is absent. -/
theorem C2_counterexample :
    handler ⟨some ("A%HOSTNAME%B%PEERS%C"),
        some (("unix"), (""), ("/var/run/yggdrasil.sock")),
        true, true, 5, some [(("status"), JVal.num 1)]⟩ ("node")
      = HResult.panicked
    ∧ HResult.panicked
      ≠ HResult.page (strReplace ("A%HOSTNAME%B%PEERS%C") ("%PEERS%")
          ("Non-successful response")) :=
  ⟨rfl, by decide⟩

/-- Claim C2 as amended: when the status field is present and is a
string different from success, the handler substitutes the
Non-successful response message for the peers placeholder and delivers
the Fprintf format-processing of the result (any remaining percent
sequence in the template, notably the %HOSTNAME% token, is mangled by
fmt); but when status is absent or not a string, the type assertion
panics instead of rendering the in-page message. -/
theorem C2_amended_status_handling (b nm : String) (u : String × String × String)
    (rn : Nat) (m : List (String × JVal)) (hrn : rn ≠ 0) :
    (∀ s, asString (jsonLookup m ("status")) = some s → s ≠ "success" →
      handler ⟨some b, some u, true, true, rn, some m⟩ nm
        = .page (goFprintf (strReplace b ("%PEERS%") ("Non-successful response"))))
    ∧ (asString (jsonLookup m ("status")) = none →
      handler ⟨some b, some u, true, true, rn, some m⟩ nm = .panicked) := by
  constructor
  · intro s hs hne
    simp only [handler]
    rw [hs]
    simp [hrn, hne]
  · intro hs
    simp only [handler]
    rw [hs]
    simp [hrn]

/-- Concrete instantiation of the amended claim C2. -/
theorem C2_amended_status_handling_witness :
    ((1 : Nat) ≠ 0
    ∧ asString (jsonLookup [(("status"), JVal.str ("error"))] ("status")) = some ("error")
    ∧ ("error" : String) ≠ "success"
    ∧ asString (jsonLookup [(("other"), JVal.num 3)] ("status")) = none)
    ∧ handler ⟨some ("T%PEERS%U"), some (("unix"), (""), ("/y")), true, true, 1,
        some [(("status"), JVal.str ("error"))]⟩ ("n")
      = .page (goFprintf (strReplace ("T%PEERS%U") ("%PEERS%") ("Non-successful response")))
    ∧ handler ⟨some ("T%PEERS%U"), some (("unix"), (""), ("/y")), true, true, 1,
        some [(("other"), JVal.num 3)]⟩ ("n") = .panicked :=
  ⟨⟨by decide, by decide, by decide, by decide⟩,
   (C2_amended_status_handling ("T%PEERS%U") ("n") (("unix"), (""), ("/y")) 1
      [(("status"), JVal.str ("error"))] (by decide)).1 ("error") (by decide) (by decide),
   (C2_amended_status_handling ("T%PEERS%U") ("n") (("unix"), (""), ("/y")) 1
      [(("other"), JVal.num 3)] (by decide)).2 (by decide)⟩

/-- Claim C3, counterexample: on a dial failure the handler logs and
returns without writing anything, so no page body carrying an in-page
message is delivered for the unreachable-endpoint case. -/
theorem C3_counterexample :
    handler ⟨some ("A%PEERS%B"), some (("unix"), (""), ("/var/run/yggdrasil.sock")),
        false, true, 0, none⟩ ("node") = HResult.noBody :=
  rfl

/-- Claim C3 as amended: the empty-response, malformed-JSON and
unsuccessful-string-status failures each deliver a page body carrying an
explanatory in-page message (the template with the message substituted
for the peers placeholder, then passed through Fprintf format processing,
which mangles any remaining percent sequence such as %HOSTNAME%); but the
unreachable-endpoint (dial) failure produces no body at all: the handler
just returns after logging. -/
theorem C3_amended_per_request_failures (b nm : String) (u : String × String × String)
    (m : List (String × JVal)) (s : String) (rn : Nat) :
    (handler ⟨some b, some u, false, true, rn, none⟩ nm = .noBody)
    ∧ (handler ⟨some b, some u, true, true, 0, none⟩ nm
        = .page (goFprintf (strReplace b ("%PEERS%") ("No response from admin socket"))))
    ∧ (rn ≠ 0 → handler ⟨some b, some u, true, true, rn, none⟩ nm
        = .page (goFprintf (strReplace b ("%PEERS%") ("Unable to unmarshal JSON"))))
    ∧ (rn ≠ 0 → asString (jsonLookup m ("status")) = some s → s ≠ "success" →
        handler ⟨some b, some u, true, true, rn, some m⟩ nm
          = .page (goFprintf (strReplace b ("%PEERS%") ("Non-successful response")))) := by
  refine ⟨rfl, rfl, fun hrn => ?_, fun hrn hs hne => ?_⟩
  · simp [handler, hrn]
  · simp only [handler]
    rw [hs]
    simp [hrn, hne]

/-- Concrete instantiation of the amended claim C3. -/
theorem C3_amended_per_request_failures_witness :
    ((1 : Nat) ≠ 0
    ∧ asString (jsonLookup [(("status"), JVal.str ("error"))] ("status")) = some ("error")
    ∧ ("error" : String) ≠ "success")
    ∧ (handler ⟨some ("T%PEERS%"), some (("unix"), (""), ("/y")), false, true, 1, none⟩ ("n")
        = HResult.noBody)
    ∧ (handler ⟨some ("T%PEERS%"), some (("unix"), (""), ("/y")), true, true, 0, none⟩ ("n")
        = .page (goFprintf (strReplace ("T%PEERS%") ("%PEERS%") ("No response from admin socket"))))
    ∧ (handler ⟨some ("T%PEERS%"), some (("unix"), (""), ("/y")), true, true, 1, none⟩ ("n")
        = .page (goFprintf (strReplace ("T%PEERS%") ("%PEERS%") ("Unable to unmarshal JSON"))))
    ∧ (handler ⟨some ("T%PEERS%"), some (("unix"), (""), ("/y")), true, true, 1,
          some [(("status"), JVal.str ("error"))]⟩ ("n")
        = .page (goFprintf (strReplace ("T%PEERS%") ("%PEERS%") ("Non-successful response")))) :=
  let T := C3_amended_per_request_failures ("T%PEERS%") ("n") (("unix"), (""), ("/y"))
    [(("status"), JVal.str ("error"))] ("error") 1
  ⟨⟨by decide, by decide, by decide⟩, T.1, T.2.1, T.2.2.1 (by decide),
   T.2.2.2 (by decide) (by decide) (by decide)⟩

/-- Claim C6, counterexample: startup completes normally with an
unparseable admin address stored verbatim (main performs no validation),
and the fatal exit for the bad address happens inside the request
handler (url.Parse at src/yggpub.go line 75, log.Fatalln at line 77), so
the configuration error is precisely deferred to request-handling time,
not caught at startup. -/
theorem C6_counterexample :
    mainStartup (some ("host")) none (some ("::bad address::")) none
      = { nodename := ("host"), adminaddr := ("::bad address::"), listenaddr := ("[::]:80"),
          routes := [("/"), ("/style.css"), ("/chartist.min.css"), ("/chartist.min.js")] }
    ∧ handler ⟨some ("T%PEERS%"), none, true, true, 0, none⟩ ("host") = HResult.fatal :=
  ⟨rfl, rfl⟩

/-- Claim C6 as amended: main stores the admin address without any
validation, so no admin-address configuration error is fatal at startup;
the handler does the parse per request and exits the whole process
(log.Fatalln) when it fails, during the first dashboard request. -/
theorem C6_amended_invalid_address_fatal_at_request
    (hostname nFlag aFlag lFlag : Option String) (env : AdminEnv) (nm b : String) :
    (mainStartup hostname nFlag aFlag lFlag).adminaddr
        = aFlag.getD ("unix:///var/run/yggdrasil.sock")
    ∧ (env.template = some b → env.parsedAdmin = none → handler env nm = .fatal) := by
  refine ⟨rfl, fun h1 h2 => ?_⟩
  simp only [handler]
  rw [h1, h2]

/-- Concrete instantiation of the amended claim C6. -/
theorem C6_amended_witness :
    ((AdminEnv.mk (some ("T")) none true true 0 none).template = some ("T")
    ∧ (AdminEnv.mk (some ("T")) none true true 0 none).parsedAdmin = none)
    ∧ (mainStartup (some ("host")) none (some ("::not a url::")) none).adminaddr
        = (some ("::not a url::")).getD ("unix:///var/run/yggdrasil.sock")
    ∧ handler (AdminEnv.mk (some ("T")) none true true 0 none) ("host") = HResult.fatal :=
  let T := C6_amended_invalid_address_fatal_at_request (some ("host")) none
    (some ("::not a url::")) none (AdminEnv.mk (some ("T")) none true true 0 none)
    ("host") ("T")
  ⟨⟨rfl, rfl⟩, T.1, T.2 rfl rfl⟩

/-- Claim C7, counterexample: on the unsuccessful-status error path the
handler substitutes only the peers placeholder, so %HOSTNAME% is not
replaced by the node name; the leftover token then reaches Fprintf as
part of the format string and is mangled, and the delivered body is
neither the fully substituted document nor one containing the node
name. -/
theorem C7_counterexample :
    handler ⟨some ("H:%HOSTNAME%;P:%PEERS%;"), some (("unix"), (""), ("/y")), true, true, 3,
        some [(("status"), JVal.str ("failure"))]⟩ ("mynode")
      = HResult.page ("H:%!H(MISSING)OSTNAME%!;(MISSING)P:Non-successful response;")
    ∧ handler ⟨some ("H:%HOSTNAME%;P:%PEERS%;"), some (("unix"), (""), ("/y")), true, true, 3,
        some [(("status"), JVal.str ("failure"))]⟩ ("mynode")
      ≠ HResult.page (strReplace
          (strReplace ("H:%HOSTNAME%;P:%PEERS%;") ("%HOSTNAME%") ("mynode"))
          ("%PEERS%") ("Non-successful response")) :=
  ⟨by decide, by decide⟩

/-- Claim C7 as amended: on the success path both placeholder tokens are
substituted (every occurrence, node name first, then the peers fragment)
and the result is written through Fprintf format processing; on the error
paths only the peers placeholder is substituted, so %HOSTNAME% is never
replaced by the node name there: the leftover token reaches Fprintf,
which mangles it in the delivered body. -/
theorem C7_amended_substitution (b nm : String) (u : String × String × String)
    (m resp peers : List (String × JVal)) (raws : List (String × rawLink)) (rn : Nat) :
    (rn ≠ 0 →
      asString (jsonLookup m ("status")) = some ("success") →
      asObj (jsonLookup m ("response")) = some resp →
      asObj (jsonLookup resp ("switchpeers")) = some peers →
      extractPeers peers = some raws →
      handler ⟨some b, some u, true, true, rn, some m⟩ nm
        = .page (goFprintf (strReplace (strReplace b ("%HOSTNAME%") nm) ("%PEERS%")
            (peersFragment raws))))
    ∧ (handler ⟨some b, some u, true, true, 0, none⟩ nm
        = .page (goFprintf (strReplace b ("%PEERS%") ("No response from admin socket")))) := by
  refine ⟨fun hrn hs hr hp hx => ?_, rfl⟩
  simp only [handler]
  rw [hs]
  simp [hrn, hr, hp, hx]

/-- Concrete instantiation of the amended claim C7: a successful response
with an empty switchpeers map; the delivered body has the node name in
place of %HOSTNAME% and the no-peers notice in place of %PEERS%. -/
theorem C7_amended_substitution_witness :
    ((3 : Nat) ≠ 0
    ∧ asString (jsonLookup [(("status"), JVal.str ("success")),
        (("response"), JVal.obj [(("switchpeers"), JVal.obj [])])] ("status"))
      = some ("success")
    ∧ asObj (jsonLookup [(("status"), JVal.str ("success")),
        (("response"), JVal.obj [(("switchpeers"), JVal.obj [])])] ("response"))
      = some [(("switchpeers"), JVal.obj [])]
    ∧ asObj (jsonLookup [(("switchpeers"), JVal.obj [])] ("switchpeers")) = some []
    ∧ extractPeers [] = some ([] : List (String × rawLink)))
    ∧ handler ⟨some ("H:%HOSTNAME%;P:%PEERS%;"), some (("unix"), (""), ("/y")), true, true, 3,
        some [(("status"), JVal.str ("success")),
          (("response"), JVal.obj [(("switchpeers"), JVal.obj [])])]⟩ ("mynode")
      = .page (goFprintf (strReplace
          (strReplace ("H:%HOSTNAME%;P:%PEERS%;") ("%HOSTNAME%") ("mynode"))
          ("%PEERS%") (peersFragment []))) :=
  ⟨⟨by decide, rfl, rfl, rfl, rfl⟩,
   (C7_amended_substitution ("H:%HOSTNAME%;P:%PEERS%;") ("mynode") (("unix"), (""), ("/y"))
      [(("status"), JVal.str ("success")),
        (("response"), JVal.obj [(("switchpeers"), JVal.obj [])])]
      [(("switchpeers"), JVal.obj [])] [] [] 3).1
    (by decide) rfl rfl rfl rfl⟩

/-! ## float64 decoding of byte counters (src/yggpub.go lines 148, 155) -/

/-- Modelled from the spec: the admin protocol carries byte counters as
JSON numbers, and the Go code decodes them through float64 before
converting to uint64 (src/yggpub.go lines 148 and 155); encoding/json and
float64 are Go standard library behaviour outside this repository.  This
is IEEE-754 double rounding of a nonnegative integer: round to nearest at
53 significant bits, ties to even (the exponent range is irrelevant for
counters below 2 ^ 64). -/
def roundF64 (n : Nat) : Nat :=
  if n < 2 ^ 53 then n
  else
    let k := List.findIdx (fun j => n < 2 ^ (53 + j)) (List.range 128)
    let q := n / 2 ^ k
    let r := n % 2 ^ k
    let half := 2 ^ (k - 1)
    if half < r || (r == half && q % 2 == 1) then (q + 1) * 2 ^ k else q * 2 ^ k

/-- One raw record after float64 decoding of its two byte counters. -/
def decodeRecord (r : rawLink) : rawLink :=
  { r with bytes_sent := roundF64 r.bytes_sent, bytes_recvd := roundF64 r.bytes_recvd }

/-- A raw record list after float64 decoding of every byte counter. -/
def decodeRecords (l : List (String × rawLink)) : List (String × rawLink) :=
  l.map (fun kv => (kv.1, decodeRecord kv.2))

/-- Decidable form of: every byte counter in the list is strictly below
2 ^ 53. -/
def allBelow53 (l : List (String × rawLink)) : Bool :=
  l.all (fun kv => decide (kv.2.bytes_sent < 2 ^ 53) && decide (kv.2.bytes_recvd < 2 ^ 53))

theorem decodeRecords_id (l : List (String × rawLink))
    (hl : ∀ kv ∈ l, kv.2.bytes_sent < 2 ^ 53 ∧ kv.2.bytes_recvd < 2 ^ 53) :
    decodeRecords l = l := by
  have h : l.map (fun kv => (kv.1, decodeRecord kv.2)) = l.map id := by
    refine List.map_congr_left (fun kv hk => ?_)
    obtain ⟨h1, h2⟩ := hl kv hk
    have e1 : roundF64 kv.2.bytes_sent = kv.2.bytes_sent := by
      unfold roundF64; rw [if_pos h1]
    have e2 : roundF64 kv.2.bytes_recvd = kv.2.bytes_recvd := by
      unfold roundF64; rw [if_pos h2]
    simp [decodeRecord, e1, e2]
  simpa [decodeRecords] using h

/-- Claim C10: byte counters pass through float64, so every counter that
is a nonnegative integer strictly below 2 ^ 53 decodes exactly, and
aggregation of the decoded records coincides with aggregation of the
exact ones; a counter at 2 ^ 53 + 1 is not represented exactly. -/
theorem C10_float64_decoding (n : Nat) (l : List (String × rawLink))
    (hn : n < 2 ^ 53) (hl : allBelow53 l = true) :
    roundF64 n = n
    ∧ decodeRecords l = l
    ∧ aggregate (decodeRecords l) = aggregate l
    ∧ roundF64 (2 ^ 53 + 1) ≠ 2 ^ 53 + 1 := by
  have hl' : ∀ kv ∈ l, kv.2.bytes_sent < 2 ^ 53 ∧ kv.2.bytes_recvd < 2 ^ 53 := by
    intro kv hk
    have h := (List.all_eq_true.mp hl) kv hk
    simpa using h
  have h2 := decodeRecords_id l hl'
  have h1 : roundF64 n = n := by unfold roundF64; rw [if_pos hn]
  exact ⟨h1, h2, by rw [h2], by decide⟩

/-- Concrete instantiation of claim C10. -/
theorem C10_float64_decoding_witness :
    ((7 : Nat) < 2 ^ 53 ∧ allBelow53 [(("a"), ⟨("p"), 3, 4, ("[]")⟩)] = true)
    ∧ (roundF64 7 = 7
      ∧ decodeRecords [(("a"), ⟨("p"), 3, 4, ("[]")⟩)] = [(("a"), ⟨("p"), 3, 4, ("[]")⟩)]
      ∧ aggregate (decodeRecords [(("a"), ⟨("p"), 3, 4, ("[]")⟩)])
          = aggregate [(("a"), ⟨("p"), 3, 4, ("[]")⟩)]
      ∧ roundF64 (2 ^ 53 + 1) ≠ 2 ^ 53 + 1) :=
  ⟨⟨by decide, by decide⟩,
   C10_float64_decoding 7 [(("a"), ⟨("p"), 3, 4, ("[]")⟩)] (by decide) (by decide)⟩
